import Mathlib

/-!
Shallow embedding of the MLB player team-history reconciliation pipeline:
`src/functions/cron/uploadMLBPlayerTeamHistory/handler.ts`,
`src/functions/database.ts`, `src/functions/notifications.ts`, and the
earlier per-record `bulkInsertTeamHistory` kept in `src/unnamed/part_002`.

Conventions of the embedding:
* Calendar days are abstract natural numbers. The JavaScript value
  `new Date(transaction.date)` is represented by the field
  `date : Option Nat` of `RawTransaction`: `none` stands for an invalid
  date (`isNaN(getTime())`), `some d` for the parsed calendar day.
* JavaScript falsiness of numeric ids (`!transaction.id` etc.) is `none`
  or `some 0` on an `Option Nat` field.
* The comma-separated team CSV string produced by `fetchValidMLBTeamsCSV`
  and re-split by `processTransactions` is carried as the underlying
  `List Nat` of team ids; joining with commas and re-splitting is a
  round trip on it, and the CSV string is empty (falsy) exactly when the
  list is empty.
* Fallible external calls (database, HTTP fetch, SNS publish) are
  oracles of type `Except String _` supplied in the environment record;
  a thrown JavaScript exception is `Except.error`.
* `String.length` counts characters where the source counts UTF-16 code
  units; the two agree on the inputs considered here.
-/

/-! ### Calendar dates: `validateDateParameters` (handler.ts lines 27-55) -/

/-- Decide whether a character is an ASCII digit, as matched by `\d`. -/
def isDigitChar (c : Char) : Bool := decide ('0' ≤ c) && decide (c ≤ '9')

/-- The test of the regex `^\d{4}-\d{2}-\d{2}$` from handler.ts line 29. -/
def dateRegexTest (s : String) : Bool :=
  match s.toList with
  | [y1, y2, y3, y4, h1, m1, m2, h2, d1, d2] =>
      isDigitChar y1 && isDigitChar y2 && isDigitChar y3 && isDigitChar y4 &&
      decide (h1 = '-') && isDigitChar m1 && isDigitChar m2 &&
      decide (h2 = '-') && isDigitChar d1 && isDigitChar d2
  | _ => false

/-- Numeric value of an ASCII digit character. -/
def digitVal (c : Char) : Nat := c.toNat - '0'.toNat

/-- Whether a year is a Gregorian leap year, as used by the JavaScript
date parser to accept or reject `YYYY-02-29`. -/
def isLeapYear (y : Nat) : Bool :=
  (y % 4 = 0 && y % 100 ≠ 0) || (y % 400 = 0)

/-- Number of days of month `m` of year `y`. -/
def daysInMonth (y m : Nat) : Nat :=
  if m = 2 then (if isLeapYear y then 29 else 28)
  else if m = 4 || m = 6 || m = 9 || m = 11 then 30
  else 31

/-- The outcome of `new Date(s)` on a string `s`, restricted to what the
validator observes: `none` when `isNaN(getTime())`, and the (year,
month, day) triple otherwise.  ECMAScript parses the date-time string
format `YYYY-MM-DD` and yields an invalid date when the string does not
match the format or a component is out of range. -/
def parseISODate (s : String) : Option (Nat × Nat × Nat) :=
  match s.toList with
  | [y1, y2, y3, y4, h1, m1, m2, h2, d1, d2] =>
      if isDigitChar y1 && isDigitChar y2 && isDigitChar y3 && isDigitChar y4 &&
         decide (h1 = '-') && isDigitChar m1 && isDigitChar m2 &&
         decide (h2 = '-') && isDigitChar d1 && isDigitChar d2 then
        let y := digitVal y1 * 1000 + digitVal y2 * 100 + digitVal y3 * 10 + digitVal y4
        let m := digitVal m1 * 10 + digitVal m2
        let d := digitVal d1 * 10 + digitVal d2
        if 1 ≤ m && m ≤ 12 && 1 ≤ d && d ≤ daysInMonth y m then
          some (y, m, d)
        else none
      else none
  | _ => none

/-- Total order on parsed dates mirroring the comparison of epoch
milliseconds `startDateObj > endDateObj`: for valid calendar dates the
millisecond order is the lexicographic order on (year, month, day),
which this injection into `Nat` preserves. -/
def dateOrdinal (ymd : Nat × Nat × Nat) : Nat :=
  ymd.1 * 10000 + ymd.2.1 * 100 + ymd.2.2

/-- `validateDateParameters` (handler.ts lines 27-55): regex-check both
strings, parse both with `new Date`, reject unparsable dates, reject
`startDate > endDate`.  Pure: it returns a value and touches nothing. -/
def validateDateParameters (startDate endDate : String) : Except String Unit :=
  if ¬ dateRegexTest startDate then
    .error "Invalid startDate format. Expected YYYY-MM-DD"
  else if ¬ dateRegexTest endDate then
    .error "Invalid endDate format. Expected YYYY-MM-DD"
  else
    match parseISODate startDate with
    | none => .error "Invalid startDate"
    | some s =>
      match parseISODate endDate with
      | none => .error "Invalid endDate"
      | some e =>
        if dateOrdinal s > dateOrdinal e then
          .error "startDate must be less than or equal to endDate"
        else .ok ()

/-- Boolean success test on `Except`. -/
def exOk {ε α : Type} : Except ε α → Bool
  | .ok _ => true
  | .error _ => false

/-! ### Chunking (database.ts lines 217-233)

`bulkInsertTeamHistory` slices the record list as
`for (let i = 0; i < records.length; i += CHUNK_SIZE) records.slice(i, i + CHUNK_SIZE)`
with `CHUNK_SIZE = 500`.  `chunk500` reproduces exactly that sequence of
slices; the fuel argument of the auxiliary function is only an upper
bound on the number of iterations and every call site passses the list
length, so the recursion is structural and computable. -/

/-- Auxiliary chunking function; `fuel` bounds the recursion depth. -/
def chunk500Fuel : Nat → List α → List (List α)
  | 0, _ => []
  | _, [] => []
  | fuel + 1, x :: xs => ((x :: xs).take 500) :: chunk500Fuel fuel ((x :: xs).drop 500)

/-- The list of slices `records.slice(i, i + 500)` for `i = 0, 500, 1000, …`,
exactly as iterated by the loop of `bulkInsertTeamHistory`. -/
def chunk500 (l : List α) : List (List α) := chunk500Fuel l.length l

theorem chunk500Fuel_join (fuel : Nat) (l : List α) (h : l.length ≤ fuel) :
    (chunk500Fuel fuel l).flatten = l := by
  induction fuel generalizing l with
  | zero =>
    have : l = [] := List.length_eq_zero.mp (Nat.le_zero.mp h)
    simp [this, chunk500Fuel]
  | succ n ih =>
    cases l with
    | nil => simp [chunk500Fuel]
    | cons x xs =>
      simp only [chunk500Fuel, List.flatten_cons]
      rw [ih]
      · exact List.take_append_drop 500 (x :: xs)
      · rw [List.length_drop]
        simp only [List.length_cons] at h ⊢
        omega

theorem chunk500_join (l : List α) : (chunk500 l).flatten = l :=
  chunk500Fuel_join l.length l (Nat.le_refl _)

theorem chunk500Fuel_mem_le (fuel : Nat) (l : List α) (c : List α)
    (hc : c ∈ chunk500Fuel fuel l) : 0 < c.length ∧ c.length ≤ 500 := by
  induction fuel generalizing l with
  | zero => simp [chunk500Fuel] at hc
  | succ n ih =>
    cases l with
    | nil => simp [chunk500Fuel] at hc
    | cons x xs =>
      simp only [chunk500Fuel, List.mem_cons] at hc
      cases hc with
      | inl h =>
        subst h
        constructor
        · simp [List.length_take]
        · simp [List.length_take]
      | inr h => exact ih _ h

theorem chunk500Fuel_count (fuel : Nat) (l : List α) (h : l.length ≤ fuel) :
    (chunk500Fuel fuel l).length = (l.length + 499) / 500 := by
  induction fuel generalizing l with
  | zero =>
    have : l = [] := List.length_eq_zero.mp (Nat.le_zero.mp h)
    simp [this, chunk500Fuel]
  | succ n ih =>
    cases l with
    | nil => simp [chunk500Fuel]
    | cons x xs =>
      simp only [chunk500Fuel, List.length_cons]
      rw [ih]
      · rw [List.length_drop]
        simp only [List.length_cons]
        omega
      · rw [List.length_drop]
        simp only [List.length_cons] at h ⊢
        omega

/-! ### Transactions and `processTransactions` (handler.ts lines 118-207) -/

/-- One element of `MLBTransactionsAPIResponse.transactions`, reduced to
the fields the pipeline reads: `transaction.id`, `transaction.person?.id`,
`transaction.toTeam?.id`, `transaction.date` (already as parse outcome,
see the header) and `transaction.description`.  An absent object or
field is `none`. -/
structure RawTransaction where
  id : Option Nat
  personId : Option Nat
  toTeamId : Option Nat
  date : Option Nat
  description : Option String
deriving DecidableEq, Repr

/-- The persisted row shape `TeamHistoryRecord` of `src/functions/types`:
`{MLBPlayer, Date, MLBTeam, Description}`. -/
structure TeamHistoryRecord where
  MLBPlayer : Nat
  Date : Nat
  MLBTeam : Nat
  Description : String
deriving DecidableEq, Repr

/-- The intermediate shape `TeamHistoryRecord & {transactionId: number}`
collected in `candidateRecords`. -/
structure CandidateRecord where
  MLBPlayer : Nat
  Date : Nat
  MLBTeam : Nat
  Description : String
  transactionId : Nat
deriving DecidableEq, Repr

/-- JavaScript truthiness of an optional number: `undefined`, `null` and
`0` are falsy. -/
def jsTruthyNat : Option Nat → Bool
  | none => false
  | some n => n ≠ 0

/-- `transaction.description || ''`. -/
def jsStringOrEmpty : Option String → String
  | none => ""
  | some s => s

/-- The truncation of handler.ts lines 163-167:
`if (description.length > 255) description = description.substring(0, 255)`. -/
def truncateDescription (s : String) : String :=
  if s.length > 255 then (s.toList.take 255).asString else s

/-- The loop body of the first pass of `processTransactions`
(handler.ts lines 129-176): each guard that `continue`s becomes `none`,
a surviving transaction is projected into a `CandidateRecord`. -/
def toCandidate (validPlayers : List Nat) (validTeamIds : List Nat)
    (t : RawTransaction) : Option CandidateRecord :=
  if ¬ jsTruthyNat t.personId then none
  else if ¬ validPlayers.contains (t.personId.getD 0) then none
  else if ¬ jsTruthyNat t.toTeamId then none
  else if ¬ validTeamIds.contains (t.toTeamId.getD 0) then none
  else
    match t.date with
    | none => none
    | some d =>
      if ¬ jsTruthyNat t.id then none
      else
        some { MLBPlayer := t.personId.getD 0
               Date := d
               MLBTeam := t.toTeamId.getD 0
               Description := truncateDescription (jsStringOrEmpty t.description)
               transactionId := t.id.getD 0 }

/-- The deduplication key built at handler.ts line 182:
` \x7b player \x7d - \x7b date string \x7d - \x7b team \x7d `.  Players
and teams are numerals and the date block has fixed shape, so the key
string determines the triple; the embedding uses the triple itself.
Note the key includes the team. -/
def dedupKey (c : CandidateRecord) : Nat × Nat × Nat :=
  (c.MLBPlayer, c.Date, c.MLBTeam)

/-- One step of the second pass (handler.ts lines 181-190) on the
insertion-ordered JavaScript `Map`, modelled as an association list in
insertion order: `Map.set` on a present key replaces the value in
place, on an absent key appends. -/
def dedupStep (m : List ((Nat × Nat × Nat) × CandidateRecord))
    (r : CandidateRecord) : List ((Nat × Nat × Nat) × CandidateRecord) :=
  match m.find? (fun p => p.1 = dedupKey r) with
  | none => m ++ [(dedupKey r, r)]
  | some p =>
    if r.transactionId > p.2.transactionId then
      m.map (fun q => if q.1 = dedupKey r then (dedupKey r, r) else q)
    else m

/-- Drop the `transactionId` again (handler.ts lines 193-198). -/
def candidateToRecord (c : CandidateRecord) : TeamHistoryRecord :=
  { MLBPlayer := c.MLBPlayer, Date := c.Date, MLBTeam := c.MLBTeam
    Description := c.Description }

/-- `processTransactions` (handler.ts lines 118-207): first pass filters
and projects, second pass deduplicates through the `Map`, then
`Array.from(map.values())` in insertion order with `transactionId`
removed. -/
def processTransactions (transactions : List RawTransaction)
    (validPlayers : List Nat) (validTeamIds : List Nat) : List TeamHistoryRecord :=
  let candidateRecords := transactions.filterMap (toCandidate validPlayers validTeamIds)
  let dedupMap := candidateRecords.foldl dedupStep []
  (dedupMap.map (fun p => p.2)).map candidateToRecord

/-! ### Persistence: `MLBPlayer_TeamHistory` and the MERGE statements

The table is a list of rows in physical order.  A single MERGE statement
(database.ts lines 246-256, and the single-row variant of
`src/unnamed/part_002` lines 228-238) matches target rows on
`target.MLBPlayer = source.MLBPlayer AND target.Date = source.Date`,
updates `MLBTeam` and `Description` on match and inserts the source row
otherwise.  SQL Server evaluates all matches against the target as it
stood when the statement began, and raises an error when two source rows
attempt to update the same target row; `mergeChunk` reproduces both. -/

abbrev Table := List TeamHistoryRecord

/-- The natural key `(MLBPlayer, Date)` the MERGE matches on. -/
def rowKey (r : TeamHistoryRecord) : Nat × Nat := (r.MLBPlayer, r.Date)

/-- Whether the table holds a row with the given key. -/
def keyMem (tbl : Table) (k : Nat × Nat) : Bool :=
  tbl.any (fun row => rowKey row = k)

/-- Simultaneous application of one multi-row MERGE: every target row
matched by a source row is updated with the (first such) source row,
and every unmatched source row is appended. -/
def mergeSimApply (tbl : Table) (chunk : List TeamHistoryRecord) : Table :=
  tbl.map (fun row =>
    match chunk.find? (fun r => rowKey r = rowKey row) with
    | some r => { row with MLBTeam := r.MLBTeam, Description := r.Description }
    | none => row) ++
  chunk.filter (fun r => ¬ keyMem tbl (rowKey r))

/-- Number of `UPDATE` actions the OUTPUT clause reports for one chunk:
the matched target rows. -/
def chunkUpdatedCount (tbl : Table) (chunk : List TeamHistoryRecord) : Nat :=
  (tbl.filter (fun row => chunk.any (fun r => rowKey r = rowKey row))).length

/-- Number of `INSERT` actions the OUTPUT clause reports for one chunk:
the unmatched source rows. -/
def chunkInsertedCount (tbl : Table) (chunk : List TeamHistoryRecord) : Nat :=
  (chunk.filter (fun r => ¬ keyMem tbl (rowKey r))).length

/-- One multi-row MERGE statement over a chunk.  It fails (SQL Server
error 8672) when two source rows match the same target row, that is,
when the source keys that occur in the target are not pairwise
distinct; otherwise it returns the new table and the OUTPUT counts. -/
def mergeChunk (tbl : Table) (chunk : List TeamHistoryRecord) :
    Except String (Table × Nat × Nat) :=
  if ((chunk.map rowKey).filter (fun k => keyMem tbl k)).Nodup then
    .ok (mergeSimApply tbl chunk, chunkInsertedCount tbl chunk, chunkUpdatedCount tbl chunk)
  else
    .error "The MERGE statement attempted to UPDATE the same row more than once"

/-- Sequential upsert of one record, the net effect of a single-row
MERGE: update the matching rows or append. -/
def upsert (tbl : Table) (r : TeamHistoryRecord) : Table :=
  if keyMem tbl (rowKey r) then
    tbl.map (fun row =>
      if rowKey row = rowKey r then
        { row with MLBTeam := r.MLBTeam, Description := r.Description }
      else row)
  else tbl ++ [r]

/-- Outcome of `bulkInsertTeamHistory` (database.ts lines 204-306):
the returned statistics. -/
structure InsertStats where
  inserted : Nat
  updated : Nat
  total : Nat
deriving DecidableEq, Repr

/-- The chunk loop of database.ts lines 227-276 inside the transaction:
chunks are merged in order against the evolving (uncommitted) table,
accumulating the OUTPUT counts; `failAt i = true` models an external
database failure thrown while processing chunk number `i`. -/
def runChunks (failAt : Nat → Bool) :
    Table → List (List TeamHistoryRecord) → Nat → Nat → Nat →
    Except String (Table × Nat × Nat)
  | tbl, [], _, ins, upd => .ok (tbl, ins, upd)
  | tbl, c :: cs, i, ins, upd =>
    if failAt i then .error "chunk merge failed"
    else
      match mergeChunk tbl c with
      | .error e => .error e
      | .ok (tbl2, ci, cu) => runChunks failAt tbl2 cs (i + 1) (ins + ci) (upd + cu)

/-- `bulkInsertTeamHistory` (database.ts lines 204-306): empty input
returns zero statistics without touching the database; otherwise all
chunks of `chunk500 records` run inside one transaction that is
committed only when every chunk succeeded, and rolled back — leaving
the table exactly as before — when any chunk threw, with the error
re-thrown to the caller. -/
def bulkInsertTeamHistory (failAt : Nat → Bool) (tbl : Table)
    (records : List TeamHistoryRecord) : Except String InsertStats × Table :=
  if records.isEmpty then (.ok { inserted := 0, updated := 0, total := 0 }, tbl)
  else
    match runChunks failAt tbl (chunk500 records) 0 0 0 with
    | .ok (tbl2, ins, upd) =>
        (.ok { inserted := ins, updated := upd, total := ins + upd }, tbl2)
    | .error e => (.error e, tbl)

/-- The per-record loop of the earlier implementation
(`src/unnamed/part_002` lines 221-238): one single-row MERGE per record,
sequentially, inside one transaction. -/
def runSingleMerges : Table → List TeamHistoryRecord → Except String Table
  | tbl, [] => .ok tbl
  | tbl, r :: rs =>
    match mergeChunk tbl [r] with
    | .error e => .error e
    | .ok (tbl2, _, _) => runSingleMerges tbl2 rs

/-- The earlier `bulkInsertTeamHistory` (`src/unnamed/part_002` lines
204-261): same transactional wrapper, no statistics, one single-row
MERGE per record. -/
def bulkInsertTeamHistoryOld (tbl : Table) (records : List TeamHistoryRecord) :
    Except String Unit × Table :=
  if records.isEmpty then (.ok (), tbl)
  else
    match runSingleMerges tbl records with
    | .ok tbl2 => (.ok (), tbl2)
    | .error e => (.error e, tbl)

/-! ### Notifications (notifications.ts) and the audit log (database.ts) -/

/-- `sendCronSuccessNotification` (notifications.ts lines 10-50): skip
in the local environment; otherwise publish to SNS (`deliver` is the
outcome of `sns.send`) and catch any delivery failure — it is logged
and deliberately not re-thrown (lines 46-49), so the function always
returns normally. -/
def sendCronSuccessNotification (isLocal : Bool) (deliver : Except String Unit) :
    Except String Unit :=
  if isLocal then .ok ()
  else
    match deliver with
    | .ok _ => .ok ()
    | .error _ => .ok ()

/-- `sendCronErrorNotification` (notifications.ts lines 55-89): same
structure, the catch at lines 85-88 swallows the delivery failure. -/
def sendCronErrorNotification (isLocal : Bool) (deliver : Except String Unit) :
    Except String Unit :=
  if isLocal then .ok ()
  else
    match deliver with
    | .ok _ => .ok ()
    | .error _ => .ok ()

/-- `logCronExecution` (database.ts lines 313-355): the INSERT into
`dbo._CronLogins` is attempted and any database error is re-thrown to
the caller (line 345).  `dbInsert` is the outcome of the INSERT. -/
def logCronExecution (dbInsert : Except String Unit) : Except String Unit :=
  match dbInsert with
  | .ok _ => .ok ()
  | .error e => .error e

/-! ### The handler (handler.ts lines 209-366) -/

/-- Everything the handler observes from the outside world in one run:
outcomes of the audit-log INSERT, the two catalog queries, the MLB API
fetch, the per-chunk database failures, the SNS deliveries, plus the
date inputs (event fields, `process.env` variables and the computed
defaults `getYesterday()` / `getTomorrow()`), the environment type and
the initial table state. -/
structure HandlerEnv where
  auditDb : Except String Unit
  isLocal : Bool
  envStartDate : Option String
  envEndDate : Option String
  eventStartDate : Option String
  eventEndDate : Option String
  yesterday : String
  tomorrow : String
  teamsResult : Except String (List Nat)
  playersResult : Except String (List Nat)
  fetchResult : Except String (List RawTransaction)
  dbFailAt : Nat → Bool
  table : Table
  successDeliver : Except String Unit
  errorDeliver : Except String Unit

/-- The counts of the returned body (handler.ts lines 288-301 and
337-350). -/
structure RunSummary where
  transactionsFound : Nat
  recordsProcessed : Nat
  recordsInserted : Nat
  recordsUpdated : Nat
  totalDbOperations : Nat
deriving DecidableEq, Repr

/-- Observable outcome of one handler run: the returned summary or the
re-thrown error, the final table state, and which collaborators were
invoked. -/
structure HandlerResult where
  outcome : Except String RunSummary
  table : Table
  successSent : Bool
  errorSent : Bool
  teamsFetched : Bool
  playersFetched : Bool
  apiFetched : Bool
  processInvoked : Bool
  upsertInvoked : Bool
deriving Repr

/-- Assemble the returned counts in the order transactionsFound,
recordsProcessed, recordsInserted, recordsUpdated, totalDbOperations. -/
def mkSummary (tf rp ri ru td : Nat) : RunSummary :=
  { transactionsFound := tf, recordsProcessed := rp, recordsInserted := ri,
    recordsUpdated := ru, totalDbOperations := td }

/-- `a || b` on an optional string against a default (`event.startDate
|| getYesterday()` and the `process.env` variant): the empty string is
falsy. -/
def jsOrDefault (v : Option String) (dflt : String) : String :=
  match v with
  | some s => if s.isEmpty then dflt else s
  | none => dflt

/-- Date resolution of handler.ts lines 224-234. -/
def resolveStartDate (env : HandlerEnv) : String :=
  if env.isLocal then jsOrDefault env.envStartDate env.yesterday
  else jsOrDefault env.eventStartDate env.yesterday

/-- Date resolution of handler.ts lines 224-234. -/
def resolveEndDate (env : HandlerEnv) : String :=
  if env.isLocal then jsOrDefault env.envEndDate env.tomorrow
  else jsOrDefault env.eventEndDate env.tomorrow

/-- The catch block of handler.ts lines 352-365: send the error
notification, then re-throw.  A (hypothetical) exception escaping
`sendCronErrorNotification` would replace the original error, as there
is no nested catch; the stage flags record which collaborators had been
reached before the throw. -/
def handlerFail (env : HandlerEnv) (tf pf af pi ui : Bool) (tbl : Table)
    (e : String) : HandlerResult :=
  match sendCronErrorNotification env.isLocal env.errorDeliver with
  | .ok _ =>
    { outcome := .error e, table := tbl, successSent := false, errorSent := true,
      teamsFetched := tf, playersFetched := pf, apiFetched := af,
      processInvoked := pi, upsertInvoked := ui }
  | .error e2 =>
    { outcome := .error e2, table := tbl, successSent := false, errorSent := true,
      teamsFetched := tf, playersFetched := pf, apiFetched := af,
      processInvoked := pi, upsertInvoked := ui }

/-- The handler (handler.ts lines 209-366), stage by stage: audit log,
date resolution and validation, team catalog, player catalog, API
fetch, the zero-transactions short circuit, filtering and dedup,
conditional bulk upsert, success notification; every thrown error runs
through the catch block (`handlerFail`). -/
def runHandler (env : HandlerEnv) : HandlerResult :=
  match logCronExecution env.auditDb with
  | .error e => handlerFail env false false false false false env.table e
  | .ok _ =>
    let startDate := resolveStartDate env
    let endDate := resolveEndDate env
    if startDate.isEmpty || endDate.isEmpty then
      handlerFail env false false false false false env.table
        "Missing required parameters: startDate and endDate must be provided"
    else
      match validateDateParameters startDate endDate with
      | .error e => handlerFail env false false false false false env.table e
      | .ok _ =>
        match env.teamsResult with
        | .error e => handlerFail env true false false false false env.table e
        | .ok teams =>
          if teams.isEmpty then
            handlerFail env true false false false false env.table
              "No valid MLB teams found in database"
          else
            match env.playersResult with
            | .error e => handlerFail env true true false false false env.table e
            | .ok players =>
              if players.isEmpty then
                handlerFail env true true false false false env.table
                  "No valid MLB players found in database"
              else
                match env.fetchResult with
                | .error e => handlerFail env true true true false false env.table e
                | .ok transactions =>
                  if transactions.isEmpty then
                    match sendCronSuccessNotification env.isLocal env.successDeliver with
                    | .ok _ =>
                      { outcome := .ok (mkSummary 0 0 0 0 0),
                        table := env.table, successSent := true, errorSent := false,
                        teamsFetched := true, playersFetched := true, apiFetched := true,
                        processInvoked := false, upsertInvoked := false }
                    | .error e => handlerFail env true true true false false env.table e
                  else
                    let records := processTransactions transactions players teams
                    if records.isEmpty then
                      match sendCronSuccessNotification env.isLocal env.successDeliver with
                      | .ok _ =>
                        { outcome := .ok (mkSummary transactions.length 0 0 0 0),
                          table := env.table, successSent := true, errorSent := false,
                          teamsFetched := true, playersFetched := true, apiFetched := true,
                          processInvoked := true, upsertInvoked := false }
                      | .error e => handlerFail env true true true true false env.table e
                    else
                      match bulkInsertTeamHistory env.dbFailAt env.table records with
                      | (.error e, tbl2) => handlerFail env true true true true true tbl2 e
                      | (.ok stats, tbl2) =>
                        match sendCronSuccessNotification env.isLocal env.successDeliver with
                        | .ok _ =>
                          { outcome := .ok (mkSummary transactions.length records.length
                              stats.inserted stats.updated stats.total),
                            table := tbl2, successSent := true, errorSent := false,
                            teamsFetched := true, playersFetched := true, apiFetched := true,
                            processInvoked := true, upsertInvoked := true }
                        | .error e => handlerFail env true true true true true tbl2 e

/-! ### Helper lemmas -/

theorem sendCronSuccessNotification_ok (isLocal : Bool) (d : Except String Unit) :
    sendCronSuccessNotification isLocal d = .ok () := by
  unfold sendCronSuccessNotification
  cases isLocal <;> cases d <;> rfl

theorem sendCronErrorNotification_ok (isLocal : Bool) (d : Except String Unit) :
    sendCronErrorNotification isLocal d = .ok () := by
  unfold sendCronErrorNotification
  cases isLocal <;> cases d <;> rfl

theorem handlerFail_eq (env : HandlerEnv) (tf pf af pi ui : Bool) (tbl : Table)
    (e : String) :
    handlerFail env tf pf af pi ui tbl e =
      { outcome := .error e, table := tbl, successSent := false, errorSent := true,
        teamsFetched := tf, playersFetched := pf, apiFetched := af,
        processInvoked := pi, upsertInvoked := ui } := by
  unfold handlerFail
  rw [sendCronErrorNotification_ok]

/-- Sample row used by concrete witnesses. -/
def sampleRecord : TeamHistoryRecord :=
  { MLBPlayer := 12345, Date := 20240401, MLBTeam := 141, Description := "Traded" }

/-- A second sample row with a different natural key. -/
def sampleRecord2 : TeamHistoryRecord :=
  { MLBPlayer := 54321, Date := 20240402, MLBTeam := 147, Description := "Signed" }

/-! ### Claim C3 -/

set_option maxRecDepth 4000 in
/-- Claim C3: `bulkInsertTeamHistory` partitions the deduplicated record
list via `chunk500` into consecutive batches of at most 500 records whose
concatenation is the input in order, `(n + 499) / 500` (the ceiling of
`n / 500` in natural division) batches in total; 501 records give
exactly 2 batches of sizes 500 and 1. -/
theorem C3_chunk_partition (records : List TeamHistoryRecord) :
    (chunk500 records).flatten = records ∧
    (∀ c ∈ chunk500 records, 0 < c.length ∧ c.length ≤ 500) ∧
    (chunk500 records).length = (records.length + 499) / 500 ∧
    (chunk500 (List.replicate 501 sampleRecord)).map List.length = [500, 1] := by
  refine ⟨chunk500_join records, ?_, chunk500Fuel_count records.length records (Nat.le_refl _), ?_⟩
  · intro c hc
    exact chunk500Fuel_mem_le records.length records c hc
  · rfl

/-- Concrete instance of C3: wrapped so the 501-record example is checked
at a closed input. -/
theorem C3_chunk_partition_witness :
    (chunk500 [sampleRecord, sampleRecord2]).flatten = [sampleRecord, sampleRecord2] :=
  (C3_chunk_partition [sampleRecord, sampleRecord2]).1

/-! ### Claim C2 -/

/-- Claim C2: all batches of one `bulkInsertTeamHistory` run live inside
one transaction; when any batch fails the transaction is rolled back, so
the table seen by the caller is exactly the table from before the run,
and the error is returned (re-thrown) instead of statistics. -/
theorem C2_atomic_rollback (failAt : Nat → Bool) (tbl : Table)
    (records : List TeamHistoryRecord)
    (h : exOk (bulkInsertTeamHistory failAt tbl records).1 = false) :
    (bulkInsertTeamHistory failAt tbl records).2 = tbl ∧
    ∃ e, (bulkInsertTeamHistory failAt tbl records).1 = .error e := by
  unfold bulkInsertTeamHistory at h ⊢
  by_cases hrec : records.isEmpty
  · simp [hrec, exOk] at h
  · simp only [hrec, Bool.false_eq_true, if_false] at h ⊢
    cases hrun : runChunks failAt tbl (chunk500 records) 0 0 0 with
    | ok v =>
      rw [hrun] at h
      obtain ⟨tbl2, ins, upd⟩ := v
      simp [exOk] at h
    | error e => exact ⟨rfl, e, rfl⟩

/-- C2 at a concrete input: a run whose first chunk merge throws leaves
the pre-existing row untouched and surfaces the error. -/
theorem C2_atomic_rollback_witness :
    (bulkInsertTeamHistory (fun _ => true) [sampleRecord2] [sampleRecord]).2 =
      [sampleRecord2] ∧
    ∃ e, (bulkInsertTeamHistory (fun _ => true) [sampleRecord2] [sampleRecord]).1 =
      .error e :=
  C2_atomic_rollback (fun _ => true) [sampleRecord2] [sampleRecord] (by rfl)

/-! ### Claim C9 -/

/-- Claim C9: a failure of the audit-log write is re-thrown by
`logCronExecution` and, because it is the first awaited step of the
handler, the run fails with that error after sending the failure
notification, with the catalog loads, the API fetch and the persistence
never attempted and the table untouched. -/
theorem C9_audit_failure_fatal (env : HandlerEnv) (e : String)
    (h : env.auditDb = .error e) :
    logCronExecution env.auditDb = .error e ∧
    runHandler env =
      { outcome := .error e, table := env.table, successSent := false,
        errorSent := true, teamsFetched := false, playersFetched := false,
        apiFetched := false, processInvoked := false, upsertInvoked := false } := by
  constructor
  · rw [h]; rfl
  · simp [runHandler, h, logCronExecution, handlerFail_eq]

/-- Environment used by the concrete witnesses of the handler claims:
lambda environment, explicit event dates 2024-01-01 to 2024-01-01,
healthy catalogs, an empty fetch and an empty table. -/
def sampleEnv : HandlerEnv :=
  { auditDb := .ok (), isLocal := false,
    envStartDate := none, envEndDate := none,
    eventStartDate := some "2024-01-01", eventEndDate := some "2024-01-01",
    yesterday := "2024-01-01", tomorrow := "2024-01-02",
    teamsResult := .ok [141, 147], playersResult := .ok [12345],
    fetchResult := .ok [], dbFailAt := fun _ => false, table := [],
    successDeliver := .ok (), errorDeliver := .ok () }

/-- C9 at a concrete input: audit-log failure aborts the run before any
catalog or fetch work. -/
theorem C9_audit_failure_fatal_witness :
    runHandler { sampleEnv with auditDb := .error "audit write failed" } =
      { outcome := .error "audit write failed", table := [], successSent := false,
        errorSent := true, teamsFetched := false, playersFetched := false,
        apiFetched := false, processInvoked := false, upsertInvoked := false } :=
  (C9_audit_failure_fatal { sampleEnv with auditDb := .error "audit write failed" }
    "audit write failed" rfl).2

/-! ### Claim C8 -/

/-- Claim C8: both notification senders catch delivery failures
internally and always return normally, so the entire observable outcome
of a handler run is unchanged under any success/error delivery
outcome. -/
theorem C8_notification_isolated (env : HandlerEnv) (d1 d2 : Except String Unit) :
    sendCronSuccessNotification env.isLocal d1 = .ok () ∧
    sendCronErrorNotification env.isLocal d2 = .ok () ∧
    runHandler { env with successDeliver := d1, errorDeliver := d2 } = runHandler env := by
  refine ⟨sendCronSuccessNotification_ok _ _, sendCronErrorNotification_ok _ _, ?_⟩
  cases env
  simp only [runHandler, handlerFail, resolveStartDate, resolveEndDate,
    sendCronSuccessNotification_ok, sendCronErrorNotification_ok]

/-! ### Claim C1 -/

/-- First candidate of the claim:
player 7, date 2024-04-01, team 141, source id 10. -/
def c1RawA : RawTransaction :=
  { id := some 10, personId := some 7, toTeamId := some 141,
    date := some 20240401, description := some "to 141" }

/-- Second candidate of the claim:
player 7, date 2024-04-01, team 147, source id 20. -/
def c1RawB : RawTransaction :=
  { id := some 20, personId := some 7, toTeamId := some 147,
    date := some 20240401, description := some "to 147" }

/-- Claim C1 is refuted by the code: the dedup key of handler.ts line
182 includes the team, so on the two candidates of the claim —
(player 7, 2024-04-01, team 141, source 10) and (player 7, 2024-04-01,
team 147, source 20) — `processTransactions` keeps BOTH records, two
rows sharing the natural key (player 7, 2024-04-01), instead of the
single claimed survivor with source id 20. -/
theorem C1_dedup_keeps_both_teams :
    processTransactions [c1RawA, c1RawB] [7] [141, 147] =
      [{ MLBPlayer := 7, Date := 20240401, MLBTeam := 141, Description := "to 141" },
       { MLBPlayer := 7, Date := 20240401, MLBTeam := 147, Description := "to 147" }] ∧
    (processTransactions [c1RawA, c1RawB] [7] [141, 147]).length ≠ 1 := by
  constructor
  · rfl
  · decide

/-! ### Dedup output membership (shared by C5 and C7) -/

theorem dedupStep_mem (m : List ((Nat × Nat × Nat) × CandidateRecord))
    (r : CandidateRecord) (p : (Nat × Nat × Nat) × CandidateRecord)
    (hp : p ∈ dedupStep m r) : p.2 = r ∨ p ∈ m := by
  unfold dedupStep at hp
  cases hfind : m.find? (fun q => q.1 = dedupKey r) with
  | none =>
    rw [hfind] at hp
    dsimp only at hp
    rcases List.mem_append.mp hp with h | h
    · exact Or.inr h
    · left
      rw [List.mem_singleton] at h
      rw [h]
  | some q =>
    rw [hfind] at hp
    dsimp only at hp
    split at hp
    · rcases List.mem_map.mp hp with ⟨q2, hq2, heq⟩
      split at heq
      · left
        rw [← heq]
      · right
        rw [← heq]
        exact hq2
    · exact Or.inr hp

theorem foldl_dedupStep_mem (l : List CandidateRecord)
    (m0 : List ((Nat × Nat × Nat) × CandidateRecord))
    (p : (Nat × Nat × Nat) × CandidateRecord)
    (hp : p ∈ l.foldl dedupStep m0) : p ∈ m0 ∨ p.2 ∈ l := by
  induction l generalizing m0 with
  | nil => exact Or.inl hp
  | cons r rest ih =>
    rcases ih (dedupStep m0 r) hp with h | h
    · rcases dedupStep_mem m0 r p h with h2 | h2
      · right
        rw [h2]
        exact List.mem_cons_self r rest
      · exact Or.inl h2
    · right
      exact List.mem_cons_of_mem r h

/-- Every record output by `processTransactions` is the projection of a
surviving candidate, itself projected from some fetched transaction. -/
theorem mem_processTransactions (ts : List RawTransaction)
    (players teams : List Nat) (r : TeamHistoryRecord)
    (hr : r ∈ processTransactions ts players teams) :
    ∃ t ∈ ts, ∃ c, toCandidate players teams t = some c ∧ r = candidateToRecord c := by
  unfold processTransactions at hr
  rcases List.mem_map.mp hr with ⟨c, hc, hrc⟩
  rcases List.mem_map.mp hc with ⟨p, hpmem, hpc⟩
  rcases foldl_dedupStep_mem _ _ p hpmem with h | h
  · exact absurd h (List.not_mem_nil p)
  · rcases List.mem_filterMap.mp h with ⟨t, htmem, htc⟩
    refine ⟨t, htmem, p.2, htc, ?_⟩
    rw [← hrc, hpc]

/-- Inversion of the projection: a produced candidate passed the player
and team membership checks and carries the truncated description. -/
theorem toCandidate_some (players teams : List Nat) (t : RawTransaction)
    (c : CandidateRecord) (h : toCandidate players teams t = some c) :
    c.MLBPlayer ∈ players ∧ c.MLBTeam ∈ teams ∧
    c.Description = truncateDescription (jsStringOrEmpty t.description) := by
  by_cases h1 : jsTruthyNat t.personId
  case neg => simp [toCandidate, h1] at h
  by_cases h2 : t.personId.getD 0 ∈ players
  case neg => simp [toCandidate, h1, h2] at h
  by_cases h3 : jsTruthyNat t.toTeamId
  case neg => simp [toCandidate, h1, h2, h3] at h
  by_cases h4 : t.toTeamId.getD 0 ∈ teams
  case neg => simp [toCandidate, h1, h2, h3, h4] at h
  cases hdate : t.date with
  | none => simp [toCandidate, h1, h2, h3, h4, hdate] at h
  | some d =>
    by_cases h5 : jsTruthyNat t.id
    case neg => simp [toCandidate, h1, h2, h3, h4, hdate, h5] at h
    simp [toCandidate, h1, h2, h3, h4, hdate, h5] at h
    subst h
    exact ⟨h2, h4, rfl⟩

/-- A transaction whose person id is not in `validPlayers` never yields
a candidate. -/
theorem toCandidate_none_of_invalid_player (players teams : List Nat)
    (t : RawTransaction) (p : Nat) (hp : t.personId = some p)
    (hmem : p ∉ players) :
    toCandidate players teams t = none := by
  by_cases h1 : jsTruthyNat t.personId
  · simp [toCandidate, h1, hp, hmem]
  · simp [toCandidate, h1]

theorem truncateDescription_length (s : String) :
    (truncateDescription s).length ≤ 255 := by
  unfold truncateDescription
  split
  · rw [show (List.asString (s.toList.take 255)).length = (s.toList.take 255).length
        from rfl]
    rw [List.length_take]
    exact min_le_left _ _
  · omega

theorem dateRegexTest_nonempty (s : String) (h : dateRegexTest s = true) :
    s.isEmpty = false := by
  cases he : s.isEmpty with
  | false => rfl
  | true =>
    rw [(String.isEmpty_iff s).mp he] at h
    exact absurd h (by decide)

/-- A validation success implies both strings passed the regex (hence
are nonempty) and both parsed, with start not after end. -/
theorem validateDateParameters_ok (s e : String)
    (h : validateDateParameters s e = .ok ()) :
    dateRegexTest s = true ∧ dateRegexTest e = true ∧
    s.isEmpty = false ∧ e.isEmpty = false := by
  unfold validateDateParameters at h
  by_cases hs : dateRegexTest s = true
  · by_cases hee : dateRegexTest e = true
    · exact ⟨hs, hee, dateRegexTest_nonempty s hs, dateRegexTest_nonempty e hee⟩
    · rw [if_neg (by simp [hs]), if_pos (by simp [hee])] at h
      exact Except.noConfusion h
  · rw [if_pos (by simp [hs])] at h
    exact Except.noConfusion h

/-! ### Claim C5 -/

/-- Claim C5: every candidate projected from a transaction that passes
filtering carries `truncateDescription` of the raw description, whose
length never exceeds 255; when the raw description is longer than 255
characters the projection is exactly its first 255 characters, and
every record reaching the persistence stage keeps that bound. -/
theorem C5_description_truncated (ts : List RawTransaction)
    (players teams : List Nat) (t : RawTransaction) (c : CandidateRecord)
    (h : toCandidate players teams t = some c) :
    c.Description = truncateDescription (jsStringOrEmpty t.description) ∧
    c.Description.length ≤ 255 ∧
    ((jsStringOrEmpty t.description).length > 255 →
      c.Description = ((jsStringOrEmpty t.description).toList.take 255).asString) ∧
    ∀ r ∈ processTransactions ts players teams, r.Description.length ≤ 255 := by
  obtain ⟨-, -, hdesc⟩ := toCandidate_some players teams t c h
  refine ⟨hdesc, ?_, ?_, ?_⟩
  · rw [hdesc]
    exact truncateDescription_length _
  · intro hlong
    rw [hdesc]
    unfold truncateDescription
    rw [if_pos hlong]
  · intro r hr
    rcases mem_processTransactions ts players teams r hr with ⟨t2, -, c2, hc2, hrc⟩
    obtain ⟨-, -, hdesc2⟩ := toCandidate_some players teams t2 c2 hc2
    rw [hrc]
    show c2.Description.length ≤ 255
    rw [hdesc2]
    exact truncateDescription_length _

/-- Transaction with a 300-character description, for the C5 witness. -/
def c5Raw : RawTransaction :=
  { id := some 500, personId := some 12345, toTeamId := some 141,
    date := some 20240401, description := some (String.mk (List.replicate 300 'a')) }

/-- Candidate that `toCandidate` produces from `c5Raw`. -/
def c5Candidate : CandidateRecord :=
  { MLBPlayer := 12345, Date := 20240401, MLBTeam := 141,
    Description := ((String.mk (List.replicate 300 'a')).toList.take 255).asString,
    transactionId := 500 }

set_option maxRecDepth 4000 in
/-- C5 at a concrete input: a 300-character description is carried
forward as exactly its first 255 characters. -/
theorem C5_description_truncated_witness :
    c5Candidate.Description =
      ((jsStringOrEmpty c5Raw.description).toList.take 255).asString :=
  (C5_description_truncated [] [12345] [141] c5Raw c5Candidate (by rfl)).2.2.1
    (by decide)

/-! ### Claim C7 -/

/-- Claim C7: every record surviving filter and dedup names a player
from `validPlayers` and a destination team from the valid team ids; a
fetched transaction whose person id is outside `validPlayers` yields no
candidate, and a run fetching exactly one such transaction succeeds
with transactionsFound = 1 and recordsProcessed = 0. -/
theorem C7_filter_validity (ts : List RawTransaction)
    (players teams : List Nat) (env : HandlerEnv) (t : RawTransaction) (p : Nat)
    (hp : t.personId = some p) (hmem : p ∉ players)
    (haudit : env.auditDb = .ok ())
    (hval : validateDateParameters (resolveStartDate env) (resolveEndDate env) = .ok ())
    (hteams : env.teamsResult = .ok teams) (hteamsne : teams.isEmpty = false)
    (hplayers : env.playersResult = .ok players) (hplayersne : players.isEmpty = false)
    (hfetch : env.fetchResult = .ok [t]) :
    (∀ r ∈ processTransactions ts players teams,
        r.MLBPlayer ∈ players ∧ r.MLBTeam ∈ teams) ∧
    processTransactions [t] players teams = [] ∧
    (runHandler env).outcome = .ok (mkSummary 1 0 0 0 0) ∧
    (runHandler env).successSent = true ∧
    (runHandler env).upsertInvoked = false ∧
    (runHandler env).table = env.table := by
  have hproc : processTransactions [t] players teams = [] := by
    simp [processTransactions,
      toCandidate_none_of_invalid_player players teams t p hp hmem]
  obtain ⟨-, -, hsne, hene⟩ := validateDateParameters_ok _ _ hval
  refine ⟨?_, hproc, ?_⟩
  · intro r hr
    rcases mem_processTransactions ts players teams r hr with ⟨t2, -, c2, hc2, hrc⟩
    obtain ⟨hpl, htm, -⟩ := toCandidate_some players teams t2 c2 hc2
    rw [hrc]
    exact ⟨hpl, htm⟩
  · simp [runHandler, logCronExecution, haudit, hsne, hene, hval, hteams, hteamsne,
      hplayers, hplayersne, hfetch, hproc, sendCronSuccessNotification_ok]

/-- Transaction whose person id 99999 is not a valid player. -/
def c7Raw : RawTransaction :=
  { id := some 600, personId := some 99999, toTeamId := some 141,
    date := some 20240401, description := some "unknown player" }

/-- C7 at a concrete input: one irrelevant transaction gives a
successful run with counts (1, 0, 0, 0, 0). -/
theorem C7_filter_validity_witness :
    (runHandler { sampleEnv with fetchResult := .ok [c7Raw] }).outcome =
      .ok (mkSummary 1 0 0 0 0) :=
  (C7_filter_validity [] [12345] [141, 147]
    { sampleEnv with fetchResult := .ok [c7Raw] } c7Raw 99999 rfl (by decide)
    rfl (by rfl) rfl rfl rfl rfl rfl).2.2.1

/-! ### Claim C4 -/

/-- Claim C4: when the fetch returns zero transactions, the handler
short-circuits: neither `processTransactions` nor the upsert is
invoked, a success notification is sent and the returned summary has
all counts at zero, with the table untouched. -/
theorem C4_empty_fetch_short_circuit (env : HandlerEnv) (teams players : List Nat)
    (haudit : env.auditDb = .ok ())
    (hval : validateDateParameters (resolveStartDate env) (resolveEndDate env) = .ok ())
    (hteams : env.teamsResult = .ok teams) (hteamsne : teams.isEmpty = false)
    (hplayers : env.playersResult = .ok players) (hplayersne : players.isEmpty = false)
    (hfetch : env.fetchResult = .ok []) :
    runHandler env =
      { outcome := .ok (mkSummary 0 0 0 0 0), table := env.table,
        successSent := true, errorSent := false, teamsFetched := true,
        playersFetched := true, apiFetched := true, processInvoked := false,
        upsertInvoked := false } := by
  obtain ⟨-, -, hsne, hene⟩ := validateDateParameters_ok _ _ hval
  simp [runHandler, logCronExecution, haudit, hsne, hene, hval, hteams, hteamsne,
    hplayers, hplayersne, hfetch, sendCronSuccessNotification_ok]

/-- C4 at a concrete input: the spec scenario with window 2024-01-01 to
2024-01-01 and an empty fetch. -/
theorem C4_empty_fetch_short_circuit_witness :
    runHandler sampleEnv =
      { outcome := .ok (mkSummary 0 0 0 0 0), table := [],
        successSent := true, errorSent := false, teamsFetched := true,
        playersFetched := true, apiFetched := true, processInvoked := false,
        upsertInvoked := false } :=
  C4_empty_fetch_short_circuit sampleEnv [141, 147] [12345] rfl (by rfl)
    rfl rfl rfl rfl rfl

/-! ### Claim C6 -/

theorem validateDateParameters_fails (s e : String)
    (h : dateRegexTest s = false ∨ dateRegexTest e = false ∨
         parseISODate s = none ∨ parseISODate e = none ∨
         (∃ a b, parseISODate s = some a ∧ parseISODate e = some b ∧
           dateOrdinal a > dateOrdinal b)) :
    exOk (validateDateParameters s e) = false := by
  rcases h with h | h | h | h | ⟨a, b, ha, hb, hgt⟩
  · simp [validateDateParameters, h, exOk]
  · by_cases hrs : dateRegexTest s = true
    · simp [validateDateParameters, hrs, h, exOk]
    · simp [validateDateParameters, hrs, exOk]
  · by_cases hrs : dateRegexTest s = true
    · by_cases hre : dateRegexTest e = true
      · simp [validateDateParameters, hrs, hre, h, exOk]
      · simp [validateDateParameters, hrs, hre, exOk]
    · simp [validateDateParameters, hrs, exOk]
  · by_cases hrs : dateRegexTest s = true
    · by_cases hre : dateRegexTest e = true
      · cases hps : parseISODate s with
        | none => simp [validateDateParameters, hrs, hre, hps, exOk]
        | some a => simp [validateDateParameters, hrs, hre, hps, h, exOk]
      · simp [validateDateParameters, hrs, hre, exOk]
    · simp [validateDateParameters, hrs, exOk]
  · by_cases hrs : dateRegexTest s = true
    · by_cases hre : dateRegexTest e = true
      · simp [validateDateParameters, hrs, hre, ha, hb, hgt, exOk]
      · simp [validateDateParameters, hrs, hre, exOk]
    · simp [validateDateParameters, hrs, exOk]

/-- Claim C6: date-window validation rejects (throws on) any input pair
in which either string fails the `YYYY-MM-DD` regex, either date does
not parse, or the parsed start is after the parsed end; the validator
is a pure function, and whenever the resolved window fails validation
the run errors out with the table untouched before any catalog load or
fetch is attempted. -/
theorem C6_invalid_dates_rejected (s e : String) (env : HandlerEnv)
    (hs : resolveStartDate env = s) (he : resolveEndDate env = e)
    (h : dateRegexTest s = false ∨ dateRegexTest e = false ∨
         parseISODate s = none ∨ parseISODate e = none ∨
         (∃ a b, parseISODate s = some a ∧ parseISODate e = some b ∧
           dateOrdinal a > dateOrdinal b)) :
    exOk (validateDateParameters s e) = false ∧
    (runHandler env).teamsFetched = false ∧
    (runHandler env).playersFetched = false ∧
    (runHandler env).apiFetched = false ∧
    (runHandler env).upsertInvoked = false ∧
    exOk (runHandler env).outcome = false ∧
    (runHandler env).table = env.table := by
  have hfail := validateDateParameters_fails s e h
  refine ⟨hfail, ?_⟩
  have herr : ∃ msg, validateDateParameters s e = .error msg := by
    cases hv : validateDateParameters s e with
    | ok u => rw [hv] at hfail; exact absurd hfail (by simp [exOk])
    | error msg => exact ⟨msg, rfl⟩
  obtain ⟨msg, hmsg⟩ := herr
  cases haud : env.auditDb with
  | error ea =>
    simp [runHandler, logCronExecution, haud, handlerFail_eq, exOk]
  | ok u =>
    by_cases hempty : ((resolveStartDate env).isEmpty || (resolveEndDate env).isEmpty) = true
    · simp [runHandler, logCronExecution, haud, hempty, handlerFail_eq, exOk]
    · simp only [Bool.or_eq_true, not_or, Bool.not_eq_true] at hempty
      simp [runHandler, logCronExecution, haud, hempty.1, hempty.2, hs, he, hmsg,
        handlerFail_eq, exOk]
      split <;> simp [exOk]

/-- C6 at a concrete input: the window 2024-05-02 to 2024-05-01 is
rejected and the run never reaches the catalog or fetch stages. -/
theorem C6_invalid_dates_rejected_witness :
    exOk (validateDateParameters "2024-05-02" "2024-05-01") = false ∧
    (runHandler { sampleEnv with eventStartDate := some "2024-05-02",
                                 eventEndDate := some "2024-05-01" }).teamsFetched = false ∧
    (runHandler { sampleEnv with eventStartDate := some "2024-05-02",
                                 eventEndDate := some "2024-05-01" }).playersFetched = false ∧
    (runHandler { sampleEnv with eventStartDate := some "2024-05-02",
                                 eventEndDate := some "2024-05-01" }).apiFetched = false ∧
    (runHandler { sampleEnv with eventStartDate := some "2024-05-02",
                                 eventEndDate := some "2024-05-01" }).upsertInvoked = false ∧
    exOk (runHandler { sampleEnv with eventStartDate := some "2024-05-02",
                                      eventEndDate := some "2024-05-01" }).outcome = false ∧
    (runHandler { sampleEnv with eventStartDate := some "2024-05-02",
                                 eventEndDate := some "2024-05-01" }).table =
      ({ sampleEnv with eventStartDate := some "2024-05-02",
                        eventEndDate := some "2024-05-01" } : HandlerEnv).table :=
  C6_invalid_dates_rejected "2024-05-02" "2024-05-01"
    { sampleEnv with eventStartDate := some "2024-05-02",
                     eventEndDate := some "2024-05-01" }
    rfl rfl
    (Or.inr (Or.inr (Or.inr (Or.inr
      ⟨(2024, 5, 2), (2024, 5, 1), by decide, by decide, by decide⟩))))

/-! ### Claim C10: the chunked MERGE refines the per-record MERGE -/

theorem rowKey_update (row r : TeamHistoryRecord) :
    rowKey { row with MLBTeam := r.MLBTeam, Description := r.Description } = rowKey row :=
  rfl

theorem keyMem_false_not_mem (tbl : Table) (k : Nat × Nat)
    (hk : ¬ keyMem tbl k = true) (row : TeamHistoryRecord) (hrow : row ∈ tbl) :
    rowKey row ≠ k := by
  intro he
  exact hk (List.any_eq_true.mpr ⟨row, hrow, by simp [he]⟩)

theorem mergeSimApply_nil (tbl : Table) : mergeSimApply tbl [] = tbl := by
  simp [mergeSimApply]

theorem mergeSimApply_singleton (tbl : Table) (r : TeamHistoryRecord) :
    mergeSimApply tbl [r] = upsert tbl r := by
  unfold mergeSimApply upsert
  by_cases hk : keyMem tbl (rowKey r) = true
  · rw [if_pos hk]
    have hfilter : [r].filter (fun q => ¬ keyMem tbl (rowKey q)) = [] := by
      simp [List.filter, hk]
    rw [hfilter, List.append_nil]
    apply List.map_congr_left
    intro row hrow
    by_cases heq : rowKey row = rowKey r
    · simp [List.find?_cons, heq, if_pos]
    · have hne : rowKey r ≠ rowKey row := fun hh => heq hh.symm
      simp [List.find?_cons, heq, hne]
  · rw [if_neg hk]
    have hfilter : [r].filter (fun q => ¬ keyMem tbl (rowKey q)) = [r] := by
      simp [List.filter, hk]
    rw [hfilter]
    congr 1
    conv_rhs => rw [← List.map_id tbl]
    apply List.map_congr_left
    intro row hrow
    have : rowKey r ≠ rowKey row := fun hh =>
      keyMem_false_not_mem tbl (rowKey r) hk row hrow hh.symm
    simp [List.find?_cons, this]

theorem mergeSimApply_cons_of_fresh (tbl : Table) (r : TeamHistoryRecord)
    (rest : List TeamHistoryRecord) (hr : ∀ q ∈ rest, rowKey q ≠ rowKey r) :
    mergeSimApply tbl (r :: rest) = mergeSimApply (upsert tbl r) rest := by
  by_cases hk : keyMem tbl (rowKey r) = true
  · unfold mergeSimApply upsert
    rw [if_pos hk]
    have hkm : ∀ k, keyMem (tbl.map (fun row => if rowKey row = rowKey r then
        { row with MLBTeam := r.MLBTeam, Description := r.Description } else row)) k
        = keyMem tbl k := by
      intro k
      unfold keyMem
      rw [List.any_map]
      congr 1
      funext row
      simp only [Function.comp, rowKey]
      split <;> simp
    simp only [hkm]
    have hfildrop : (r :: rest).filter (fun q => ¬ keyMem tbl (rowKey q)) =
        rest.filter (fun q => ¬ keyMem tbl (rowKey q)) := by
      simp [List.filter_cons, hk]
    rw [hfildrop, List.map_map]
    congr 1
    apply List.map_congr_left
    intro row hrow
    by_cases heq : rowKey row = rowKey r
    · have hnone : rest.find? (fun q => rowKey q = rowKey r) = none := by
        apply List.find?_eq_none.mpr
        intro q hq
        simp only [decide_eq_true_eq]
        exact hr q hq
      simp [Function.comp, List.find?_cons, heq, hnone, rowKey_update]
    · have hne : rowKey r ≠ rowKey row := fun hh => heq hh.symm
      simp [Function.comp, List.find?_cons, heq, hne]
  · unfold mergeSimApply upsert
    rw [if_neg hk]
    have hrkeep : (r :: rest).filter (fun q => ¬ keyMem tbl (rowKey q)) =
        r :: rest.filter (fun q => ¬ keyMem tbl (rowKey q)) := by
      simp [List.filter_cons, hk]
    rw [hrkeep]
    have hgr : (rest.find? (fun q => rowKey q = rowKey r)) = none := by
      apply List.find?_eq_none.mpr
      intro q hq
      simp only [decide_eq_true_eq]
      exact hr q hq
    have hfilter2 : rest.filter (fun q => ¬ keyMem (tbl ++ [r]) (rowKey q)) =
        rest.filter (fun q => ¬ keyMem tbl (rowKey q)) := by
      apply List.filter_congr
      intro q hq
      have : keyMem (tbl ++ [r]) (rowKey q) = keyMem tbl (rowKey q) := by
        unfold keyMem
        rw [List.any_append]
        have : (rowKey r = rowKey q) = False := by
          simp [hr q hq]
          exact fun hh => hr q hq hh.symm
        simp [this]
      rw [this]
    rw [List.map_append, hfilter2]
    have hmapr : [r].map (fun row =>
        match rest.find? (fun q => rowKey q = rowKey row) with
        | some q => { row with MLBTeam := q.MLBTeam, Description := q.Description }
        | none => row) = [r] := by
      simp [hgr]
    rw [hmapr]
    have hmapsame : tbl.map (fun row =>
        match (r :: rest).find? (fun q => rowKey q = rowKey row) with
        | some q => { row with MLBTeam := q.MLBTeam, Description := q.Description }
        | none => row) = tbl.map (fun row =>
        match rest.find? (fun q => rowKey q = rowKey row) with
        | some q => { row with MLBTeam := q.MLBTeam, Description := q.Description }
        | none => row) := by
      apply List.map_congr_left
      intro row hrow
      have : rowKey r ≠ rowKey row := fun hh =>
        keyMem_false_not_mem tbl (rowKey r) hk row hrow hh.symm
      simp [List.find?_cons, this]
    rw [hmapsame]
    simp

theorem mergeSimApply_eq_foldl (chunk : List TeamHistoryRecord) (tbl : Table)
    (h : (chunk.map rowKey).Nodup) :
    mergeSimApply tbl chunk = chunk.foldl upsert tbl := by
  induction chunk generalizing tbl with
  | nil => exact mergeSimApply_nil tbl
  | cons r rest ih =>
    rw [List.map_cons, List.nodup_cons] at h
    rw [List.foldl_cons]
    rw [mergeSimApply_cons_of_fresh tbl r rest
      (fun q hq hqe => h.1 (hqe ▸ List.mem_map_of_mem rowKey hq))]
    exact ih (upsert tbl r) h.2

theorem mergeChunk_of_nodup (tbl : Table) (chunk : List TeamHistoryRecord)
    (h : (chunk.map rowKey).Nodup) :
    mergeChunk tbl chunk = .ok (chunk.foldl upsert tbl,
      chunkInsertedCount tbl chunk, chunkUpdatedCount tbl chunk) := by
  unfold mergeChunk
  rw [if_pos (h.filter _), mergeSimApply_eq_foldl chunk tbl h]

theorem mergeChunk_singleton (tbl : Table) (r : TeamHistoryRecord) :
    mergeChunk tbl [r] = .ok (upsert tbl r,
      chunkInsertedCount tbl [r], chunkUpdatedCount tbl [r]) := by
  have h : (([r] : List TeamHistoryRecord).map rowKey).Nodup := by simp
  rw [mergeChunk_of_nodup tbl [r] h]
  rw [List.foldl_cons, List.foldl_nil]

theorem runChunks_ok (chunks : List (List TeamHistoryRecord)) (tbl : Table)
    (i ins upd : Nat) (h : ∀ c ∈ chunks, (c.map rowKey).Nodup) :
    ∃ a b, runChunks (fun _ => false) tbl chunks i ins upd =
      .ok (chunks.foldl (fun t c => c.foldl upsert t) tbl, a, b) := by
  induction chunks generalizing tbl i ins upd with
  | nil => exact ⟨ins, upd, rfl⟩
  | cons c cs ih =>
    simp only [runChunks, Bool.false_eq_true, if_false]
    rw [mergeChunk_of_nodup tbl c (h c (List.mem_cons_self c cs))]
    rw [List.foldl_cons]
    exact ih (c.foldl upsert tbl) (i + 1) _ _ (fun c2 hc2 => h c2 (List.mem_cons_of_mem c hc2))

theorem runSingleMerges_eq (records : List TeamHistoryRecord) (tbl : Table) :
    runSingleMerges tbl records = .ok (records.foldl upsert tbl) := by
  induction records generalizing tbl with
  | nil => rfl
  | cons r rs ih =>
    simp only [runSingleMerges, mergeChunk_singleton]
    rw [List.foldl_cons]
    exact ih (upsert tbl r)

theorem foldl_chunk500 (records : List TeamHistoryRecord) (tbl : Table) :
    (chunk500 records).foldl (fun t c => c.foldl upsert t) tbl =
      records.foldl upsert tbl := by
  conv_rhs => rw [← chunk500_join records]
  rw [List.foldl_flatten]

theorem chunk500_nodup_keys (records : List TeamHistoryRecord)
    (h : (records.map rowKey).Nodup) (c : List TeamHistoryRecord)
    (hc : c ∈ chunk500 records) : (c.map rowKey).Nodup := by
  have hj : ((chunk500 records).map (List.map rowKey)).flatten = records.map rowKey := by
    rw [← List.map_flatten, chunk500_join]
  have h2 : (((chunk500 records).map (List.map rowKey)).flatten).Nodup := by
    rw [hj]; exact h
  exact (List.nodup_flatten.mp h2).1 _ (List.mem_map_of_mem _ hc)

/-- Claim C10: on a record list whose (player, date) keys are pairwise
distinct, the chunked multi-row MERGE implementation produces exactly
the final table of the earlier sequential single-row MERGE
implementation (both succeed and neither rolls back); the distinctness
hypothesis is what rules out the multi-row MERGE failing on a doubly
matched target row. -/
theorem C10_chunked_refines_per_record (records : List TeamHistoryRecord)
    (tbl : Table) (h : (records.map rowKey).Nodup) :
    (bulkInsertTeamHistory (fun _ => false) tbl records).2 =
      (bulkInsertTeamHistoryOld tbl records).2 ∧
    exOk (bulkInsertTeamHistory (fun _ => false) tbl records).1 = true ∧
    exOk (bulkInsertTeamHistoryOld tbl records).1 = true := by
  unfold bulkInsertTeamHistory bulkInsertTeamHistoryOld
  by_cases hrec : records.isEmpty
  · simp [hrec, exOk]
  · obtain ⟨a, b, hrc⟩ := runChunks_ok (chunk500 records) tbl 0 0 0
      (fun c hc => chunk500_nodup_keys records h c hc)
    rw [runSingleMerges_eq records tbl]
    simp only [hrec, Bool.false_eq_true, if_false]
    rw [hrc, foldl_chunk500]
    simp [exOk]

/-- C10 at a concrete input: two records with distinct keys, one
updating an existing row and one inserting, end in the same table under
both implementations. -/
theorem C10_chunked_refines_per_record_witness :
    (bulkInsertTeamHistory (fun _ => false) [sampleRecord]
        [{ sampleRecord with MLBTeam := 150 }, sampleRecord2]).2 =
      (bulkInsertTeamHistoryOld [sampleRecord]
        [{ sampleRecord with MLBTeam := 150 }, sampleRecord2]).2 :=
  (C10_chunked_refines_per_record
    [{ sampleRecord with MLBTeam := 150 }, sampleRecord2] [sampleRecord]
    (by decide)).1
